import Mathlib

/-!
Shallow embedding of the shogun-linda-relay reconciliation server
(src/server.js) together with proofs about its claims.

The embedding models the in-memory state of the process:

* `usernameIndex` — the canonical record store, a JS `Map` from the
  lowercased username (the `searchKey`) to an identity record
  (`UserData`), modelled as an insertion-ordered association list;
* `fuseSnapshot` — the snapshot the fuzzy index is rebuilt from
  (`Array.from(usernameIndex.values())`), the fuzzy matcher itself is an
  external collaborator and its ranked results enter the model as inputs;
* `dbWrites` — the log of asynchronous durable-mirror upserts
  (`saveUsernameToDB`), write-behind and fire-and-forget in the source;
* `lastSyncTime` — the global cooldown timer (`SYNC_COOLDOWN` = 10 s);
* per-user bounded notification queues (`userNotificationQueues`);
* per-room presence (`roomPresence`);
* the protocol-statistics aggregation over GunDB callbacks.

JS `Map`s are embedded as insertion-ordered association lists
(`Map.prototype.set` updates an existing key in place and appends unknown
keys; iteration follows insertion order), or as total functions where
only per-key contents are observable.  Timestamps (`Date.now()`) are
naturals supplied explicitly to each operation.
-/

namespace Linda

/-! ## JS Map and string helpers -/

/-- JS `Map.prototype.get`, on an insertion-ordered association list. -/
def mapGet {α : Type} (m : List (String × α)) (k : String) : Option α :=
  (m.find? (fun kv => kv.1 == k)).map (fun kv => kv.2)

/-- JS `Map.prototype.set`: update an existing key in place (keeping its
position in iteration order), append an unknown key. -/
def mapSet {α : Type} (m : List (String × α)) (k : String) (v : α) :
    List (String × α) :=
  if m.any (fun kv => kv.1 == k) then
    m.map (fun kv => if kv.1 == k then (k, v) else kv)
  else
    m ++ [(k, v)]

/-- JS `Map.prototype.delete` (keys are unique in a `Map`, so filtering
by key removes exactly the matching entry). -/
def mapDelete {α : Type} (m : List (String × α)) (k : String) :
    List (String × α) :=
  m.filter (fun kv => kv.1 != k)

/-- JS `String.prototype.toLowerCase`, character by character (the
usernames handled by the relay are plain ASCII identifiers). -/
def jsToLower (s : String) : String :=
  ⟨s.data.map Char.toLower⟩

/-- Whether the character list `s` starts with the pattern `pat`. -/
def listStartsWith : List Char → List Char → Bool
  | _, [] => true
  | [], _ :: _ => false
  | c :: s, p :: pat => c == p && listStartsWith s pat

/-- Replace the first occurrence of `pat` in `s` by `repl`
(JS `String.prototype.replace` with a string pattern replaces only the
first occurrence). -/
def replaceFirstAux (pat repl : List Char) : List Char → List Char
  | [] => []
  | c :: s =>
    if listStartsWith (c :: s) pat && !pat.isEmpty then
      repl ++ (c :: s).drop pat.length
    else
      c :: replaceFirstAux pat repl s

/-- JS `s.replace(pat, repl)` for string patterns (first occurrence only). -/
def jsReplaceFirst (s pat repl : String) : String :=
  ⟨replaceFirstAux pat.data repl.data s.data⟩

/-- JS `s.replace(/^~/, "")`: drop a single leading tilde. -/
def dropLeadingTilde (s : String) : String :=
  match s.data with
  | '~' :: rest => ⟨rest⟩
  | _ => s

/-! ## Notification queues (src/server.js lines 100-158) -/

/-- The values of `NOTIFICATION_TYPES` (src/server.js lines 101-105). -/
def validNotificationTypes : List String :=
  ["cache_updated", "stats_updated", "system_alert"]

/-- `MAX_NOTIFICATIONS_PER_USER` (src/server.js line 106). -/
def MAX_NOTIFICATIONS_PER_USER : Nat := 100

/-- A notification as passed to `queueNotificationForUser`: `type` is an
arbitrary string, `data` is an opaque payload that may be missing
(`undefined`), `timestamp` may be missing or non-numeric. -/
structure RawNotification where
  type : String
  data : Option String
  timestamp : Option Nat
deriving DecidableEq

/-- A normalized notification as stored in a queue. -/
structure StoredNotification where
  type : String
  data : String
  timestamp : Nat
deriving DecidableEq

/-- Normalization performed by `queueNotificationForUser`
(src/server.js lines 114-125): unknown types collapse to
`"system_alert"`, missing `data` defaults to the empty payload, missing
`timestamp` defaults to the current time. -/
def normalizeNotification (now : Nat) (n : RawNotification) :
    StoredNotification :=
  { type := if validNotificationTypes.contains n.type then n.type
            else "system_alert"
    data := n.data.getD ""
    timestamp := n.timestamp.getD now }

/-- `userNotificationQueues`, as a total function from user key to queue
(a missing `Map` entry is observationally the empty queue: reads of a
missing key return `[]` and `enqueue` creates the entry). -/
def QueueState := String → List StoredNotification

/-- The queue map at process start. -/
def initialQueues : QueueState := fun _ => []

/-- Append one item, then trim to the last `MAX_NOTIFICATIONS_PER_USER`
entries (`queue.push(...)` followed by
`queue.splice(0, queue.length - MAX_NOTIFICATIONS_PER_USER)`,
src/server.js lines 131-136). -/
def enqueueTrim (q : List StoredNotification) (x : StoredNotification) :
    List StoredNotification :=
  let q' := q ++ [x]
  if MAX_NOTIFICATIONS_PER_USER < q'.length then
    q'.drop (q'.length - MAX_NOTIFICATIONS_PER_USER)
  else q'

/-- `queueNotificationForUser(userPub, notification)`
(src/server.js lines 109-137); a falsy `userPub` (the empty string) is
rejected without touching any queue. -/
def queueNotificationForUser (now : Nat) (userPub : String)
    (n : RawNotification) (qs : QueueState) : QueueState :=
  if userPub == "" then qs
  else
    fun v =>
      if v == userPub then enqueueTrim (qs userPub) (normalizeNotification now n)
      else qs v

/-- `getAndClearNotificationsForUser(userPub, limit)`
(src/server.js lines 139-158): copy the queue, keep only the last
`limit` entries when a positive numeric `limit` smaller than the queue
length is supplied, and replace the live queue by the empty one. -/
def getAndClearNotificationsForUser (userPub : String) (limit : Option Nat)
    (qs : QueueState) : List StoredNotification × QueueState :=
  let queue := qs userPub
  let notifications :=
    match limit with
    | some l =>
      if 0 < l ∧ l < queue.length then queue.drop (queue.length - l)
      else queue
    | none => queue
  (notifications, fun v => if v == userPub then [] else qs v)

/-- One enqueue call with its `Date.now()` value, target user and raw
notification. -/
def applyEnqueue (qs : QueueState) (op : Nat × String × RawNotification) :
    QueueState :=
  queueNotificationForUser op.1 op.2.1 op.2.2 qs

/-! ## Record store and reconciliation engine (src/server.js lines 82-372) -/

/-- An identity record in `usernameIndex`.  Different call sites populate
different subsets of the JS object's fields (`pub` and `userPub` are both
optional because e.g. `loadUsernamesFromDB` sets only `pub` while the
feed listeners set only `userPub`); missing fields are `none`. -/
structure UserData where
  userId : String
  username : String
  displayName : String
  pub : Option String
  userPub : Option String
  epub : Option String
  lastSeen : Nat
deriving DecidableEq

/-- The record store: lowercased username → record, insertion ordered. -/
abbrev UserIndex := List (String × UserData)

/-- The mutable server state touched by the reconciliation engine:
the record store, the cooldown timer, the snapshot the fuzzy index was
last rebuilt from (`rebuildFuseIndex`), and the log of durable-mirror
upserts (`saveUsernameToDB`). -/
structure RelayState where
  usernameIndex : UserIndex
  lastSyncTime : Nat
  fuseSnapshot : List UserData
  dbWrites : List UserData
deriving DecidableEq

/-- `SYNC_COOLDOWN` (src/server.js line 87): 10 s between full syncs. -/
def SYNC_COOLDOWN : Nat := 10000

/-- `addUsernameToIndex(userData)` (src/server.js lines 346-372): the
single write path into the record store.  Inside the cooldown window it
returns without mutating anything; otherwise it upserts the record under
the lowercased username, rebuilds the fuzzy-index snapshot from the full
store and appends a durable-mirror upsert. -/
def addUsernameToIndex (now : Nat) (userData : UserData) (s : RelayState) :
    RelayState :=
  if now - s.lastSyncTime < SYNC_COOLDOWN then s
  else
    let key := jsToLower userData.username
    let idx := mapSet s.usernameIndex key userData
    { usernameIndex := idx
      lastSyncTime := now
      fuseSnapshot := idx.map (fun kv => kv.2)
      dbWrites := s.dbWrites ++ [userData] }

/-- The JSON response of `POST /api/register`. -/
structure RegisterResponse where
  status : Nat
  success : Bool
  message : String
deriving DecidableEq

/-- JS falsiness of an optional string field (`undefined`, `null` or `""`). -/
def isFalsyStr : Option String → Bool
  | none => true
  | some s => s == ""

/-- The `POST /api/register` handler (src/server.js lines 1773-1834):
reject requests missing `username` or `pub`; otherwise detect a rename
(an index entry with the same `userPub` under a different key) and delete
the old entry, look up the entry currently stored under the new
lowercased username to carry over its `epub`, and call
`addUsernameToIndex` with the assembled record. -/
def registerHandler (now : Nat) (username displayName pub : Option String)
    (s : RelayState) : RegisterResponse × RelayState :=
  if isFalsyStr username || isFalsyStr pub then
    (⟨400, false, "Username and pub are required"⟩, s)
  else
    let u := username.getD ""
    let p := pub.getD ""
    let old? := s.usernameIndex.find?
      (fun kv => kv.2.userPub == some p && kv.1 != jsToLower u)
    let s1 : RelayState :=
      match old? with
      | some kv => { s with usernameIndex := mapDelete s.usernameIndex kv.1 }
      | none => s
    let existingEpub : Option String :=
      match mapGet s1.usernameIndex (jsToLower u) with
      | some d => if d.userPub == some p then d.epub else none
      | none => none
    let record : UserData :=
      { userId := p
        username := u
        displayName :=
          match displayName with
          | some dn => if dn == "" then u else dn
          | none => u
        pub := some p
        userPub := some p
        epub := existingEpub
        lastSeen := now }
    let s2 := addUsernameToIndex now record s1
    let msg :=
      match old? with
      | some kv => "Username updated from " ++ kv.1 ++ " to " ++ u
      | none => "User registered successfully"
    (⟨200, true, msg⟩, s2)

/-- The epub-key listener (src/server.js lines 624-668): when an `epub`
value longer than 10 characters is published for `userPub`, find the
index entry with that `userPub` and re-add it with the new `epub` and a
fresh `lastSeen`. -/
def epubUpdateEvent (now : Nat) (userPub epubData : String) (s : RelayState) :
    RelayState :=
  if 10 < epubData.length then
    match s.usernameIndex.find? (fun kv => kv.2.userPub == some userPub) with
    | some kv =>
      addUsernameToIndex now
        { kv.2 with epub := some epubData, lastSeen := now } s
    | none => s
  else s

/-! ## Feed listeners (src/server.js lines 378-499) -/

/-- `24 * 60 * 60 * 1000`, the liveness window of the usernames listener. -/
def dayInMs : Nat := 86400000

/-- The point-read result `gun.get(userPub).once(...)` used by the
usernames listener; only its `lastSeen` field is consulted. -/
structure GunUserRecord where
  lastSeen : Option Nat
deriving DecidableEq

/-- The `gun.get("usernames").map().on(...)` listener
(src/server.js lines 384-450): given a feed event `(userPub, username)`,
the fetched user record (`none` on point-read timeout) and the fetched
`epub`, add the user only when the record carries a truthy `lastSeen`
within the last 24 h; otherwise no state is mutated. -/
def usernamesFeedEvent (now : Nat) (userPub username : String)
    (userData : Option GunUserRecord) (epubFetch : Option String)
    (s : RelayState) : RelayState :=
  if userPub == "" || username == "" then s
  else
    match userData with
    | none => s
    | some d =>
      match d.lastSeen with
      | none => s
      | some ls =>
        if ls == 0 then s
        else if now - ls < dayInMs then
          addUsernameToIndex now
            ⟨userPub, username, username, none, some userPub, epubFetch, now⟩ s
        else s

/-- The `gun.get("~@").map().on(...)` alias listener
(src/server.js lines 452-499): extract the public key from the alias
soul (`aliasData.replace("~@", "").replace(username, "").replace(/^~/, "")`)
and, when it is longer than 10 characters, add the user.  Note that this
listener performs no activity-timestamp check at all. -/
def aliasFeedEvent (now : Nat) (aliasData username : String)
    (epubFetch : Option String) (s : RelayState) : RelayState :=
  if aliasData == "" || username == "" then s
  else
    let userPub :=
      dropLeadingTilde
        (jsReplaceFirst (jsReplaceFirst aliasData "~@" "") username "")
    if userPub != "" && 10 < userPub.length then
      addUsernameToIndex now
        ⟨userPub, username, username, none, some userPub, epubFetch, now⟩ s
    else s

/-! ## Username search (src/server.js lines 1578-1629) -/

/-- The result assembly of `GET /api/search/:username`: an exact lookup
in the record store first, then fuzzy matches (the ranked output of the
external Fuse.js index over the current snapshot, an input here) fill the
remaining slots up to `limit`.  No deduplication is performed. -/
def searchResults (idx : UserIndex) (fuseResults : List UserData)
    (username : String) (limit : Nat) : List UserData :=
  let results : List UserData :=
    match mapGet idx (jsToLower username) with
    | some m => [m]
    | none => []
  if results.length < limit then
    results ++ fuseResults.take (limit - results.length)
  else results

/-! ## Protocol statistics aggregation (src/server.js lines 1165-1260) -/

/-- The five partial counters accumulated by
`getProtocolStatisticsFromGunDB`. -/
structure ProtocolStats where
  totalMessages : Nat
  totalGroups : Nat
  totalTokenRooms : Nat
  totalPublicRooms : Nat
  totalConversations : Nat
deriving DecidableEq

/-- One GunDB callback invocation observed by the statistics aggregation:
each `.map().once(...)` listener fires once per child of its collection
(and never for an empty collection).  The payload carries what the
callback reads: for a conversation, the number of keys of its `messages`
object (`none` when the data or field is missing) and whether the id is
truthy; for groups/token rooms/public rooms, whether the id is truthy;
for a user, the number of keys of its `conversations` object. -/
inductive GunStatEvent where
  | conv (time : Nat) (msgCount : Option Nat) (hasId : Bool)
  | grp (time : Nat) (hasId : Bool)
  | tok (time : Nat) (hasId : Bool)
  | pubR (time : Nat) (hasId : Bool)
  | usr (time : Nat) (convCount : Option Nat)
deriving DecidableEq

/-- Arrival time of a callback. -/
def eventTime : GunStatEvent → Nat
  | .conv t _ _ => t
  | .grp t _ => t
  | .tok t _ => t
  | .pubR t _ => t
  | .usr t _ => t

/-- Whether the callback comes from the `groups` listener. -/
def isGroupEvent : GunStatEvent → Bool
  | .grp _ _ => true
  | _ => false

/-- Counter updates performed by one callback body
(src/server.js lines 1189-1244). -/
def applyStatEvent (acc : ProtocolStats) : GunStatEvent → ProtocolStats
  | .conv _ mc hasId =>
    { acc with
      totalMessages := acc.totalMessages + mc.getD 0
      totalConversations := acc.totalConversations + (if hasId then 1 else 0) }
  | .grp _ hasId =>
    { acc with totalGroups := acc.totalGroups + (if hasId then 1 else 0) }
  | .tok _ hasId =>
    { acc with totalTokenRooms := acc.totalTokenRooms + (if hasId then 1 else 0) }
  | .pubR _ hasId =>
    { acc with totalPublicRooms := acc.totalPublicRooms + (if hasId then 1 else 0) }
  | .usr _ cc =>
    { acc with totalConversations := acc.totalConversations + cc.getD 0 }

/-- `STATS_TIMEOUT`: the `setTimeout(..., 5000)` fallback. -/
def STATS_TIMEOUT : Nat := 5000

/-- Execution of `getProtocolStatisticsFromGunDB` over a trace of
callback invocations in arrival order (times nondecreasing): every
callback increments `completed` by one (`checkComplete`); the promise
resolves at the callback that reaches `totalChecks = 5`, or at the 5 s
timeout with whatever was accumulated from callbacks arriving before it.
Returns the resolution time and the resolved counters. -/
def runProtocolStats : List GunStatEvent → ProtocolStats → Nat →
    Nat × ProtocolStats
  | [], acc, _ => (STATS_TIMEOUT, acc)
  | e :: rest, acc, completed =>
    if STATS_TIMEOUT ≤ eventTime e then (STATS_TIMEOUT, acc)
    else
      let acc' := applyStatEvent acc e
      if 5 ≤ completed + 1 then (eventTime e, acc')
      else runProtocolStats rest acc' (completed + 1)

/-- `getProtocolStatisticsFromGunDB` on a callback trace, from zeroed
counters and `completed = 0`. -/
def getProtocolStatisticsFromGunDB (evs : List GunStatEvent) :
    Nat × ProtocolStats :=
  runProtocolStats evs ⟨0, 0, 0, 0, 0⟩ 0

/-! ## Room presence (src/server.js lines 688-842) -/

/-- One entry of `roomPresence`: `roomType`, the member set `users`
(`Set<userPub>`, insertion ordered, no duplicates) and the
`lastSeen: Map<userPub, timestamp>`. -/
structure RoomState where
  roomType : String
  users : List String
  lastSeen : List (String × Nat)
deriving DecidableEq

/-- JS `Set.prototype.add`. -/
def addUser (l : List String) (u : String) : List String :=
  if l.contains u then l else l ++ [u]

/-- JS `Set.prototype.delete`. -/
def removeUser (l : List String) (u : String) : List String :=
  l.filter (fun x => x != u)

/-- JS `Map.prototype.set` on the `lastSeen` map. -/
def lsSet (l : List (String × Nat)) (k : String) (t : Nat) :
    List (String × Nat) :=
  if l.any (fun p => p.1 == k) then
    l.map (fun p => if p.1 == k then (k, t) else p)
  else l ++ [(k, t)]

/-- `roomPresence`, as a total function from room id to optional room. -/
def PresenceState := String → Option RoomState

/-- The empty `roomPresence` map at process start. -/
def presenceInit : PresenceState := fun _ => none

/-- Point update of one room. -/
def updateRoom (st : PresenceState) (roomId : String) (r : RoomState) :
    PresenceState :=
  fun id => if id == roomId then some r else st id

/-- The presence-mutating socket events, with their `Date.now()` values.
`disconnect` carries the user the disconnected socket belonged to (the
socket-id lookup in `onlineUsers` is elided: it only selects this user). -/
inductive PresenceOp where
  | join (now : Nat) (roomId roomType userPub : String)
  | leave (now : Nat) (roomId userPub : String)
  | updateStatus (now : Nat) (roomId roomType userPub status : String)
  | disconnect (now : Nat) (userPub : String)
deriving DecidableEq

/-- Effect of one presence event on `roomPresence`
(src/server.js lines 709-744, 747-773, 776-805, 808-842): `joinRoom`
creates the room if needed and adds the user to `users` and `lastSeen`;
`leaveRoom` removes the user from `users` and refreshes `lastSeen`;
`updateRoomPresence` adds or removes according to `status` and always
refreshes `lastSeen`; `disconnect` removes the user from every room that
contains it, refreshing `lastSeen` there. -/
def applyPresenceOp (st : PresenceState) : PresenceOp → PresenceState
  | .join now roomId roomType userPub =>
    if roomId == "" || roomType == "" || userPub == "" then st
    else
      let room :=
        match st roomId with
        | none => (⟨roomType, [], []⟩ : RoomState)
        | some r => r
      updateRoom st roomId
        { room with
          users := addUser room.users userPub
          lastSeen := lsSet room.lastSeen userPub now }
  | .leave now roomId userPub =>
    if roomId == "" || userPub == "" then st
    else
      match st roomId with
      | none => st
      | some r =>
        updateRoom st roomId
          { r with
            users := removeUser r.users userPub
            lastSeen := lsSet r.lastSeen userPub now }
  | .updateStatus now roomId _roomType userPub status =>
    if roomId == "" || userPub == "" then st
    else
      match st roomId with
      | none => st
      | some r =>
        let users' :=
          if status == "online" then addUser r.users userPub
          else if status == "offline" then removeUser r.users userPub
          else r.users
        updateRoom st roomId
          { r with users := users', lastSeen := lsSet r.lastSeen userPub now }
  | .disconnect now userPub =>
    fun roomId =>
      match st roomId with
      | none => none
      | some r =>
        if r.users.contains userPub then
          some { r with
                 users := removeUser r.users userPub
                 lastSeen := lsSet r.lastSeen userPub now }
        else some r

/-! ## Cached statistics read (src/server.js lines 1281-1302) -/

/-- The cached `protocolStatsCache` object (src/server.js lines 90-98). -/
structure StatsCache where
  totalMessages : Nat
  totalGroups : Nat
  totalTokenRooms : Nat
  totalPublicRooms : Nat
  totalConversations : Nat
  totalContacts : Nat
  lastUpdated : Nat
deriving DecidableEq

/-- The state read by `GET /api/stats/protocol`: the stats cache and the
record store. -/
structure StatsReadState where
  cache : StatsCache
  usernameIndex : UserIndex
deriving DecidableEq

/-- The JSON body returned by `GET /api/stats/protocol`. -/
structure StatsResponse where
  success : Bool
  timestamp : Nat
  stats : StatsCache
deriving DecidableEq

/-- The `GET /api/stats/protocol` handler: spread the cache into the
response, overriding `totalContacts` with the live index size and
`lastUpdated` with the request time; the handler performs no writes. -/
def protocolStatsHandler (now : Nat) (s : StatsReadState) :
    StatsResponse × StatsReadState :=
  (⟨true, now,
    { s.cache with
      totalContacts := s.usernameIndex.length
      lastUpdated := now }⟩, s)

/-! ## Shared example states -/

/-- A record store state with one prior sync at t = 5000 (so a feed-driven
sync happened 1 s before the t = 6000 request below). -/
def c1State : RelayState := ⟨[], 5000, [], []⟩

/-- A fresh server state: empty index, no sync performed yet. -/
def cleanState : RelayState := ⟨[], 0, [], []⟩

/-- The subject key used in the rename scenario. -/
def pubK : String := "PUBKEY-ABCDEFGHIJKLMN"

/-- An encryption key longer than 10 characters (the epub listener's
threshold). -/
def epubK : String := "EPUBKEY-0123456789"

/-- State after admin-registering `alice ↦ pubK` at t = 20000. -/
def c2s1 : RelayState :=
  (registerHandler 20000 (some "alice") none (some pubK) cleanState).2

/-- State after the epub listener then delivers `epubK` for `pubK`
at t = 40000. -/
def c2s2 : RelayState := epubUpdateEvent 40000 pubK epubK c2s1

/-- State after admin-registering the rename `alicia ↦ pubK` at t = 60000. -/
def c2s3 : RelayState :=
  (registerHandler 60000 (some "alicia") none (some pubK) c2s2).2

/-! ## C1 — admin registration vs. the sync cooldown -/

/-- C1: the claim says an admin registration with a valid username and pub
always updates the record store immediately, even within 10 s of a
feed-driven sync.  The code violates this: `addUsernameToIndex` applies
the `SYNC_COOLDOWN` early-return to every caller, including
`POST /api/register`.  At t = 6000, 1 s after a sync at t = 5000, the
handler answers 200/success yet no record is reachable under "bob" —
the admin write was silently dropped. -/
theorem register_suppressed_by_cooldown :
    ((registerHandler 6000 (some "bob") none (some "PUBKEY1-0123456789")
        c1State).1.status = 200
      ∧ (registerHandler 6000 (some "bob") none (some "PUBKEY1-0123456789")
          c1State).1.success = true)
    ∧ mapGet (registerHandler 6000 (some "bob") none
        (some "PUBKEY1-0123456789") c1State).2.usernameIndex "bob" = none := by
  decide

/-! ## C2 — rename preservation of the secondary key -/

/-- C2: the claim says a rename (`alice` → `alicia` for the same key)
leaves exactly one record, reachable at "alicia", with any previously
learned `epub` carried over.  The code deletes the superseded "alice"
entry but computes the epub to preserve by looking up the *new* username
("alicia"), which has no entry, so the renamed record loses its epub:
before the rename the record at "alice" carries `epubK`; afterwards the
sole record sits at "alicia" with `epub = none`. -/
theorem rename_drops_epub :
    ((mapGet c2s2.usernameIndex "alice").map (fun d => d.epub)
        = some (some epubK))
    ∧ mapGet c2s3.usernameIndex "alice" = none
    ∧ ((mapGet c2s3.usernameIndex "alicia").map (fun d => d.epub)
        = some none)
    ∧ c2s3.usernameIndex.length = 1 := by
  decide

/-! ## C10 — cached statistics read -/

/-- C10: `GET /api/stats/protocol` mutates nothing, and its response
overrides the cached `totalContacts` with the live record-store size and
the cached `lastUpdated` with the request time, while all other counters
come from the cache. -/
theorem stats_read_pure_and_fresh (now : Nat) (s : StatsReadState) :
    (protocolStatsHandler now s).2 = s
    ∧ (protocolStatsHandler now s).1.stats.totalContacts
        = s.usernameIndex.length
    ∧ (protocolStatsHandler now s).1.stats.lastUpdated = now
    ∧ (protocolStatsHandler now s).1.stats.totalMessages
        = s.cache.totalMessages
    ∧ (protocolStatsHandler now s).1.stats.totalGroups = s.cache.totalGroups
    ∧ (protocolStatsHandler now s).1.stats.totalTokenRooms
        = s.cache.totalTokenRooms
    ∧ (protocolStatsHandler now s).1.stats.totalPublicRooms
        = s.cache.totalPublicRooms
    ∧ (protocolStatsHandler now s).1.stats.totalConversations
        = s.cache.totalConversations :=
  ⟨rfl, rfl, rfl, rfl, rfl, rfl, rfl, rfl⟩

/-! ## C8 — rejection of malformed admin writes -/

/-- C8: an admin registration missing a required identity field (falsy
`username` or falsy `pub`) is rejected with HTTP 400 and the whole state
— record store, fuzzy-index snapshot, durable-mirror write log and
cooldown timer — is returned untouched. -/
theorem register_rejects_missing_fields (now : Nat)
    (username displayName pub : Option String) (s : RelayState)
    (h : isFalsyStr username = true ∨ isFalsyStr pub = true) :
    registerHandler now username displayName pub s
      = (⟨400, false, "Username and pub are required"⟩, s) := by
  unfold registerHandler
  rcases h with h | h <;> simp [h]

/-- Witness for `register_rejects_missing_fields`: a request with an empty
username against a non-trivial state is rejected and the state survives
verbatim. -/
theorem register_rejects_missing_fields_witness :
    registerHandler 1234 (some "") none (some "PUBW-0123456789") c1State
      = (⟨400, false, "Username and pub are required"⟩, c1State) :=
  register_rejects_missing_fields 1234 (some "") none
    (some "PUBW-0123456789") c1State (Or.inl (by decide))

/-! ## C3 — search precedence, deduplication and the limit -/

/-- The exact-match record of the search scenario. -/
def uAlice : UserData :=
  ⟨"PUBA-0123456789", "alice", "alice", some "PUBA-0123456789",
    some "PUBA-0123456789", none, 1⟩

/-- A distinct fuzzy-only record. -/
def uAlicia : UserData :=
  ⟨"PUBB-0123456789", "alicia", "alicia", some "PUBB-0123456789",
    some "PUBB-0123456789", none, 2⟩

/-- The record store of the search scenario. -/
def searchIdx : UserIndex := [("alice", uAlice)]

/-- C3 counterexample: the handler concatenates the exact match and the
fuzzy results without deduplication.  Fuse.js, searching "alice" over the
snapshot (which contains `uAlice`), ranks the exact record first
(score 0, below the 0.3 threshold), so the fuzzy list is
`[uAlice, uAlicia]` — and the response contains `uAlice` twice.
Moreover a caller-supplied limit of 0 is exceeded: the exact match alone
already yields one result. -/
theorem search_duplicates_exact_match :
    (searchResults searchIdx [uAlice, uAlicia] "alice" 20
        = [uAlice, uAlice, uAlicia]
      ∧ (searchResults searchIdx [uAlice, uAlicia] "alice" 20).count uAlice
          = 2)
    ∧ (searchResults searchIdx [uAlice, uAlicia] "alice" 0).length = 1 := by
  decide

/-- C3 amended: with an exact match present and a limit of at least 1,
the exact match is placed first and the number of results never exceeds
the limit; the fuzzy remainder, however, is not deduplicated against the
exact match (see `search_duplicates_exact_match`). -/
theorem search_exact_first_and_bounded (idx : UserIndex)
    (fuseResults : List UserData) (username : String) (limit : Nat)
    (m : UserData) (hm : mapGet idx (jsToLower username) = some m)
    (hl : 1 ≤ limit) :
    (searchResults idx fuseResults username limit).head? = some m
    ∧ (searchResults idx fuseResults username limit).length ≤ limit := by
  simp only [searchResults, hm]
  split
  · refine ⟨rfl, ?_⟩
    simp only [List.length_append, List.length_take, List.length_singleton]
    omega
  · exact ⟨rfl, by simpa using hl⟩

/-- Witness for `search_exact_first_and_bounded`: the concrete scenario
with limit 5. -/
theorem search_exact_first_and_bounded_witness :
    (searchResults searchIdx [uAlicia] "Alice" 5).head? = some uAlice
    ∧ (searchResults searchIdx [uAlicia] "Alice" 5).length ≤ 5 :=
  search_exact_first_and_bounded searchIdx [uAlicia] "Alice" 5 uAlice
    (by decide) (by decide)

/-! ## C7 — the 24 h liveness filter on feed events -/

/-- Whether the activity timestamp fetched for a usernames-feed event is
absent (point-read timeout, missing or falsy `lastSeen`) or stale
(outside the 24 h window at processing time). -/
def staleOrAbsent (now : Nat) : Option GunUserRecord → Bool
  | none => true
  | some d =>
    match d.lastSeen with
    | none => true
    | some ls => ls == 0 || decide (dayInMs ≤ now - ls)

/-- C7 amended: a usernames-feed event whose associated activity
timestamp is absent or stale mutates nothing — no record is created and
no record is touched; the alias-feed listener, however, performs no such
check (see `alias_event_bypasses_liveness`). -/
theorem stale_usernames_event_no_mutation (now : Nat)
    (userPub username : String) (userData : Option GunUserRecord)
    (epubFetch : Option String) (s : RelayState)
    (h : staleOrAbsent now userData = true) :
    usernamesFeedEvent now userPub username userData epubFetch s = s := by
  unfold usernamesFeedEvent
  split
  · rfl
  · cases userData with
    | none => rfl
    | some d =>
      obtain ⟨ls?⟩ := d
      cases ls? with
      | none => rfl
      | some ls =>
        simp only [staleOrAbsent, Bool.or_eq_true, beq_iff_eq,
          decide_eq_true_eq] at h
        rcases h with h | h
        · simp [h]
        · have hnot : ¬ now - ls < dayInMs := by omega
          simp only [hnot, if_false]
          split <;> rfl

/-- Witness for `stale_usernames_event_no_mutation`: a feed event two
days after the subject's last activity leaves the state untouched. -/
theorem stale_usernames_event_no_mutation_witness :
    usernamesFeedEvent 172800000 "PUBZ-0123456789" "zed"
      (some ⟨some 1000⟩) none cleanState = cleanState :=
  stale_usernames_event_no_mutation 172800000 "PUBZ-0123456789" "zed"
    (some ⟨some 1000⟩) none cleanState (by decide)

/-- C7 counterexample: the alias listener (`gun.get("~@")`) never
consults an activity timestamp, so an alias event for an unseen key
creates a record regardless of (indeed, without any) activity timestamp
— refuting the claim for this listener, which the claim's sources
include.  Starting from the empty store, the event installs a record
under "bob". -/
theorem alias_event_bypasses_liveness :
    cleanState.usernameIndex = []
    ∧ mapGet (aliasFeedEvent 200000 "~somepubkey1234567890x" "bob" none
        cleanState).usernameIndex "bob"
      = some ⟨"somepubkey1234567890x", "bob", "bob", none,
          some "somepubkey1234567890x", none, 200000⟩ := by
  decide

/-! ## C4 — bounded notification queues -/

/-- `enqueueTrim` always keeps exactly the last 100 entries of the
appended queue (truncated subtraction makes the two branches agree). -/
theorem enqueueTrim_eq (q : List StoredNotification)
    (x : StoredNotification) :
    enqueueTrim q x = (q ++ [x]).drop ((q ++ [x]).length - 100) := by
  simp only [enqueueTrim, MAX_NOTIFICATIONS_PER_USER]
  split
  · rfl
  · next h => rw [Nat.sub_eq_zero_of_le (by omega), List.drop_zero]

/-- A queue never exceeds 100 entries after an enqueue. -/
theorem enqueueTrim_length (q : List StoredNotification)
    (x : StoredNotification) : (enqueueTrim q x).length ≤ 100 := by
  rw [enqueueTrim_eq, List.length_drop]
  omega

/-- Keeping the last `n` of `keep-last-n a ++ b` is keeping the last `n`
of `a ++ b`. -/
theorem drop_cap_append {α : Type} (n : Nat) (a b : List α) :
    ((a.drop (a.length - n)) ++ b).drop
        (((a.drop (a.length - n)) ++ b).length - n)
      = (a ++ b).drop ((a ++ b).length - n) := by
  rw [List.drop_append_eq_append_drop, List.drop_append_eq_append_drop,
    List.drop_drop]
  congr 1
  · congr 1
    simp only [List.length_append, List.length_drop]
    omega
  · congr 1
    simp only [List.length_append, List.length_drop]
    omega

/-- Folding `enqueueTrim` over any item list keeps exactly the last 100
of the concatenation, whenever the starting queue respects the bound. -/
theorem foldl_enqueueTrim_eq (l : List StoredNotification) :
    ∀ q : List StoredNotification, q.length ≤ 100 →
      l.foldl enqueueTrim q = (q ++ l).drop ((q ++ l).length - 100) := by
  induction l with
  | nil =>
    intro q hq
    simp [Nat.sub_eq_zero_of_le hq]
  | cons x xs ih =>
    intro q hq
    rw [List.foldl_cons, ih _ (enqueueTrim_length q x), enqueueTrim_eq,
      drop_cap_append, List.append_assoc]
    rfl

/-- Enqueue calls for one user read and write only that user's queue. -/
theorem foldl_queue_single_user (now : Nat) (u : String)
    (hu : (u == "") = false) (rns : List RawNotification) :
    ∀ qs : QueueState,
      (rns.foldl (fun s n => queueNotificationForUser now u n s) qs) u
        = rns.foldl (fun q n => enqueueTrim q (normalizeNotification now n))
            (qs u) := by
  induction rns with
  | nil => intro qs; rfl
  | cons n ns ih =>
    intro qs
    rw [List.foldl_cons, List.foldl_cons, ih]
    congr 1
    simp [queueNotificationForUser, hu]

/-- A trace of 150 distinct enqueues targeting one user. -/
def raw150 : List RawNotification :=
  (List.range 150).map (fun i => ⟨"cache_updated", some (toString i), some i⟩)

set_option maxRecDepth 4096 in
/-- C4: no queue ever holds more than 100 items under any sequence of
enqueue calls from the initial state, and after 150 enqueues onto an
initially empty queue the queue holds exactly the normalized forms of
the last 100 items, in their original relative order (the 50 oldest are
dropped). -/
theorem notification_queue_bounded_and_fifo :
    (∀ (ops : List (Nat × String × RawNotification)) (u : String),
        ((ops.foldl applyEnqueue initialQueues) u).length ≤ 100)
    ∧ (raw150.foldl (fun qs n => queueNotificationForUser 0 "alice" n qs)
          initialQueues) "alice"
        = (raw150.map (normalizeNotification 0)).drop 50 := by
  constructor
  · have key : ∀ (ops : List (Nat × String × RawNotification))
        (qs : QueueState), (∀ v, (qs v).length ≤ 100) →
        ∀ u, ((ops.foldl applyEnqueue qs) u).length ≤ 100 := by
      intro ops
      induction ops with
      | nil => intro qs h u; exact h u
      | cons op ops ih =>
        intro qs h u
        rw [List.foldl_cons]
        apply ih
        intro v
        simp only [applyEnqueue, queueNotificationForUser]
        split
        · exact h v
        · by_cases hv : (v == op.2.1) = true
          · simp only [hv, if_true]
            exact enqueueTrim_length _ _
          · simp only [hv, if_false]
            exact h v
    exact fun ops u => key ops initialQueues (fun v => by simp [initialQueues]) u
  · rw [foldl_queue_single_user 0 "alice" (by decide) raw150 initialQueues]
    rw [show (raw150.foldl
          (fun q n => enqueueTrim q (normalizeNotification 0 n))
          (initialQueues "alice"))
        = (raw150.map (normalizeNotification 0)).foldl enqueueTrim
            (initialQueues "alice") from (List.foldl_map _ _ _ _).symm]
    rw [foldl_enqueueTrim_eq _ _ (by simp [initialQueues])]
    simp only [initialQueues, List.nil_append]
    congr 1

/-! ## C5 — drain-on-read semantics -/

/-- C5: draining a user's notifications returns the queue contents —
the whole queue when no limit is supplied, and exactly the last `l`
entries when a positive limit `l` smaller than the queue length is
supplied — and leaves the live queue empty, so an immediate second
drain (with or without a limit) returns the empty list. -/
theorem drain_returns_and_clears (qs : QueueState) (u : String) (l : Nat)
    (hl : 0 < l) :
    ((getAndClearNotificationsForUser u (some l) qs).2 u = []
      ∧ (getAndClearNotificationsForUser u none qs).2 u = [])
    ∧ ((getAndClearNotificationsForUser u none qs).1 = qs u
      ∧ (getAndClearNotificationsForUser u (some l) qs).1
          = if l < (qs u).length then (qs u).drop ((qs u).length - l)
            else qs u)
    ∧ ((getAndClearNotificationsForUser u (some l)
          ((getAndClearNotificationsForUser u (some l) qs).2)).1 = []
      ∧ (getAndClearNotificationsForUser u none
          ((getAndClearNotificationsForUser u none qs).2)).1 = []) := by
  refine ⟨⟨by simp [getAndClearNotificationsForUser], by
    simp [getAndClearNotificationsForUser]⟩, ⟨rfl, ?_⟩, ?_, ?_⟩
  · simp only [getAndClearNotificationsForUser]
    by_cases h : l < (qs u).length
    · rw [if_pos ⟨hl, h⟩, if_pos h]
    · rw [if_neg (fun hc => h hc.2), if_neg h]
  · simp [getAndClearNotificationsForUser]
  · simp [getAndClearNotificationsForUser]

/-- An example queue state with three stored notifications for "bob". -/
def exampleQueues : QueueState :=
  fun v =>
    if v == "bob" then
      [⟨"cache_updated", "a", 1⟩, ⟨"stats_updated", "b", 2⟩,
        ⟨"system_alert", "c", 3⟩]
    else []

/-- Witness for `drain_returns_and_clears`: draining "bob" with limit 2
returns the last two of its three notifications and empties the live
queue; the second drain returns nothing. -/
theorem drain_returns_and_clears_witness :
    (getAndClearNotificationsForUser "bob" (some 2) exampleQueues).1
      = [⟨"stats_updated", "b", 2⟩, ⟨"system_alert", "c", 3⟩]
    ∧ (getAndClearNotificationsForUser "bob" (some 2) exampleQueues).2 "bob"
      = []
    ∧ (getAndClearNotificationsForUser "bob" (some 2)
        ((getAndClearNotificationsForUser "bob" (some 2) exampleQueues).2)).1
      = [] := by
  have h := drain_returns_and_clears exampleQueues "bob" 2 (by decide)
  refine ⟨?_, h.1.1, h.2.2.1⟩
  rw [h.2.1.2]
  decide

/-! ## C6 — statistics refresh termination -/

/-- The statistics promise always resolves no later than the timeout. -/
theorem runStats_resolves_by_timeout (evs : List GunStatEvent) :
    ∀ (acc : ProtocolStats) (completed : Nat),
      (runProtocolStats evs acc completed).1 ≤ STATS_TIMEOUT := by
  induction evs with
  | nil => intro acc c; exact Nat.le_refl _
  | cons e rest ih =>
    intro acc c
    simp only [runProtocolStats]
    split
    · exact Nat.le_refl _
    · next h1 =>
      split
      · exact Nat.le_of_lt (Nat.lt_of_not_le h1)
      · exact ih _ _

/-- When fewer than five callbacks arrive, all before the timeout, the
promise resolves at the timeout with exactly the accumulated partials. -/
theorem runStats_partial_on_timeout (evs : List GunStatEvent) :
    ∀ (acc : ProtocolStats) (completed : Nat),
      evs.length + completed ≤ 4 →
      (∀ e ∈ evs, eventTime e < STATS_TIMEOUT) →
      runProtocolStats evs acc completed
        = (STATS_TIMEOUT, evs.foldl applyStatEvent acc) := by
  induction evs with
  | nil => intro acc c _ _; rfl
  | cons e rest ih =>
    intro acc c hlen htime
    have hlen' : rest.length + (c + 1) ≤ 4 := by
      simp only [List.length_cons] at hlen
      omega
    simp only [runProtocolStats]
    rw [if_neg (Nat.not_le_of_lt (htime e (List.mem_cons_self e rest)))]
    rw [if_neg (by omega : ¬ 5 ≤ c + 1)]
    rw [ih _ _ hlen' (fun x hx => htime x (List.mem_cons_of_mem e hx))]
    rfl

/-- A non-group callback never touches the `totalGroups` counter. -/
theorem applyStatEvent_groups (acc : ProtocolStats) (e : GunStatEvent)
    (h : isGroupEvent e = false) :
    (applyStatEvent acc e).totalGroups = acc.totalGroups := by
  cases e
  case grp => simp [isGroupEvent] at h
  all_goals rfl

/-- Without group callbacks the resolved `totalGroups` stays at its
initial value. -/
theorem runStats_groups_zero (evs : List GunStatEvent) :
    ∀ (acc : ProtocolStats) (completed : Nat),
      (∀ e ∈ evs, isGroupEvent e = false) →
      (runProtocolStats evs acc completed).2.totalGroups
        = acc.totalGroups := by
  induction evs with
  | nil => intro acc c _; rfl
  | cons e rest ih =>
    intro acc c h
    simp only [runProtocolStats]
    split
    · rfl
    · split
      · exact applyStatEvent_groups acc e (h e (List.mem_cons_self e rest))
      · rw [ih _ _ (fun x hx => h x (List.mem_cons_of_mem e hx))]
        exact applyStatEvent_groups acc e (h e (List.mem_cons_self e rest))

/-- C6 amended: the statistics refresh never hangs — it resolves no later
than the 5 s timeout on every callback trace; when fewer than the five
expected callbacks arrive (all before the timeout) it resolves at the
timeout with exactly the partial counts accumulated so far; and a
collection that never responds contributes zero (shown for `groups`).
Early resolution, however, is keyed to five callback invocations in
total, not to one result per collection (see
`stats_resolves_before_all_results`). -/
theorem stats_refresh_resolves_with_partials :
    (∀ evs : List GunStatEvent,
        (getProtocolStatisticsFromGunDB evs).1 ≤ STATS_TIMEOUT)
    ∧ (∀ evs : List GunStatEvent, evs.length ≤ 4 →
        (∀ e ∈ evs, eventTime e < STATS_TIMEOUT) →
        getProtocolStatisticsFromGunDB evs
          = (STATS_TIMEOUT, evs.foldl applyStatEvent ⟨0, 0, 0, 0, 0⟩))
    ∧ (∀ evs : List GunStatEvent, (∀ e ∈ evs, isGroupEvent e = false) →
        (getProtocolStatisticsFromGunDB evs).2.totalGroups = 0) :=
  ⟨fun evs => runStats_resolves_by_timeout evs _ _,
    fun evs h1 h2 => runStats_partial_on_timeout evs _ _ (by omega) h2,
    fun evs h => runStats_groups_zero evs _ _ h⟩

/-- A trace where four of the five collections respond once each before
the timeout and `groups` never responds. -/
def evs4 : List GunStatEvent :=
  [.conv 100 (some 2) true, .tok 200 true, .pubR 300 true,
    .usr 400 (some 1)]

/-- Witness for `stats_refresh_resolves_with_partials`: with the
`groups` read never returning, the refresh still resolves at the
timeout with the four other counts and zero groups. -/
theorem stats_refresh_resolves_with_partials_witness :
    getProtocolStatisticsFromGunDB evs4 = (STATS_TIMEOUT, ⟨2, 0, 1, 1, 2⟩)
    ∧ (getProtocolStatisticsFromGunDB evs4).2.totalGroups = 0 :=
  ⟨(stats_refresh_resolves_with_partials.2.1 evs4 (by decide)
      (by decide)).trans (by decide),
    stats_refresh_resolves_with_partials.2.2 evs4 (by decide)⟩

/-- Five callbacks delivered by the `groups` listener alone (one per
group child), all at t = 100. -/
def evs5grp : List GunStatEvent :=
  [.grp 100 true, .grp 100 true, .grp 100 true, .grp 100 true,
    .grp 100 true]

/-- C6 counterexample: `completed` counts callback invocations, and each
`.map().once(...)` listener fires once per child, so five children of the
`groups` collection alone reach `totalChecks = 5` — the promise resolves
at t = 100, before the timeout and before any of the other four
collections has delivered a result, refuting "never resolves before
either all five results are in or the timeout fires". -/
theorem stats_resolves_before_all_results :
    getProtocolStatisticsFromGunDB evs5grp = (100, ⟨0, 5, 0, 0, 0⟩)
    ∧ (getProtocolStatisticsFromGunDB evs5grp).1 < STATS_TIMEOUT
    ∧ (∀ e ∈ evs5grp, isGroupEvent e = true) := by
  decide

/-! ## C9 — presence consistency -/

/-- Membership after a JS `Set.add`. -/
theorem mem_addUser {l : List String} {v u : String}
    (h : u ∈ addUser l v) : u ∈ l ∨ u = v := by
  unfold addUser at h
  split at h
  · exact Or.inl h
  · rcases List.mem_append.mp h with h1 | h1
    · exact Or.inl h1
    · exact Or.inr (List.mem_singleton.mp h1)

/-- Membership after a JS `Set.delete`. -/
theorem mem_of_removeUser {l : List String} {v u : String}
    (h : u ∈ removeUser l v) : u ∈ l :=
  List.mem_of_mem_filter h

/-- The key set after a JS `Map.set` contains the old keys and the new
key. -/
theorem mem_keys_lsSet (l : List (String × Nat)) (k : String) (t : Nat)
    (v : String) (h : v ∈ l.map Prod.fst ∨ v = k) :
    v ∈ (lsSet l k t).map Prod.fst := by
  unfold lsSet
  split
  · next hany =>
    have keys_eq :
        ((l.map fun p => if p.1 == k then (k, t) else p).map Prod.fst)
          = l.map Prod.fst := by
      rw [List.map_map]
      refine List.map_congr_left ?_
      intro p _
      by_cases hp : p.1 = k <;> simp [hp]
    rw [keys_eq]
    rcases h with h | rfl
    · exact h
    · rw [List.any_eq_true] at hany
      obtain ⟨p, hp, hpk⟩ := hany
      exact List.mem_map.mpr ⟨p, hp, beq_iff_eq.mp hpk⟩
  · rw [List.map_append]
    rcases h with h | rfl
    · exact List.mem_append_left _ h
    · apply List.mem_append_right
      simp

/-- The per-room invariant: every member has a `lastSeen` entry. -/
def roomInv (r : RoomState) : Prop :=
  ∀ u ∈ r.users, u ∈ r.lastSeen.map Prod.fst

/-- The invariant over the whole `roomPresence` map. -/
def presInv (st : PresenceState) : Prop :=
  ∀ id r, st id = some r → roomInv r

/-- Adding a member together with its `lastSeen` entry preserves the
room invariant. -/
theorem roomInv_add_set (r : RoomState) (h : roomInv r) (userPub : String)
    (now : Nat) :
    roomInv { r with users := addUser r.users userPub
                     lastSeen := lsSet r.lastSeen userPub now } := by
  intro u hu
  rcases mem_addUser hu with h1 | rfl
  · exact mem_keys_lsSet _ _ _ _ (Or.inl (h u h1))
  · exact mem_keys_lsSet _ _ _ _ (Or.inr rfl)

/-- Removing a member while refreshing its `lastSeen` entry preserves
the room invariant. -/
theorem roomInv_remove_set (r : RoomState) (h : roomInv r)
    (userPub : String) (now : Nat) :
    roomInv { r with users := removeUser r.users userPub
                     lastSeen := lsSet r.lastSeen userPub now } := by
  intro u hu
  exact mem_keys_lsSet _ _ _ _ (Or.inl (h u (mem_of_removeUser hu)))

/-- Leaving the member set unchanged while refreshing a `lastSeen` entry
preserves the room invariant. -/
theorem roomInv_keep_set (r : RoomState) (h : roomInv r)
    (userPub : String) (now : Nat) :
    roomInv { r with lastSeen := lsSet r.lastSeen userPub now } := by
  intro u hu
  exact mem_keys_lsSet _ _ _ _ (Or.inl (h u hu))

/-- Point room updates preserve the map invariant when the new room
satisfies the room invariant. -/
theorem presInv_updateRoom (st : PresenceState) (roomId : String)
    (r : RoomState) (hst : presInv st) (hr : roomInv r) :
    presInv (updateRoom st roomId r) := by
  intro id r' h
  unfold updateRoom at h
  split at h
  · exact (Option.some.inj h) ▸ hr
  · exact hst id r' h

/-- Every presence-mutating socket event preserves the invariant. -/
theorem presInv_apply (st : PresenceState) (op : PresenceOp)
    (h : presInv st) : presInv (applyPresenceOp st op) := by
  cases op with
  | join now roomId roomType userPub =>
    simp only [applyPresenceOp]
    split
    · exact h
    · cases hst : st roomId with
      | none =>
        simp only [hst]
        exact presInv_updateRoom st roomId _ h
          (roomInv_add_set ⟨roomType, [], []⟩ (fun u hu => absurd hu
            (List.not_mem_nil u)) userPub now)
      | some r0 =>
        simp only [hst]
        exact presInv_updateRoom st roomId _ h
          (roomInv_add_set r0 (h roomId r0 hst) userPub now)
  | leave now roomId userPub =>
    simp only [applyPresenceOp]
    split
    · exact h
    · cases hst : st roomId with
      | none => simp only [hst]; exact h
      | some r0 =>
        simp only [hst]
        exact presInv_updateRoom st roomId _ h
          (roomInv_remove_set r0 (h roomId r0 hst) userPub now)
  | updateStatus now roomId roomType userPub status =>
    simp only [applyPresenceOp]
    split
    · exact h
    · cases hst : st roomId with
      | none => simp only [hst]; exact h
      | some r0 =>
        simp only [hst]
        by_cases h1 : (status == "online") = true
        · simp only [h1, if_true]
          exact presInv_updateRoom st roomId _ h
            (roomInv_add_set r0 (h roomId r0 hst) userPub now)
        · simp only [h1, if_false]
          by_cases h2 : (status == "offline") = true
          · simp only [h2, if_true]
            exact presInv_updateRoom st roomId _ h
              (roomInv_remove_set r0 (h roomId r0 hst) userPub now)
          · simp only [h2, if_false]
            exact presInv_updateRoom st roomId _ h
              (roomInv_keep_set r0 (h roomId r0 hst) userPub now)
  | disconnect now userPub =>
    intro id r hr
    simp only [applyPresenceOp] at hr
    cases hst : st id with
    | none =>
      simp only [hst] at hr
      exact Option.noConfusion hr
    | some r0 =>
      simp only [hst] at hr
      by_cases hc : r0.users.contains userPub = true
      · rw [if_pos hc] at hr
        exact (Option.some.inj hr) ▸
          roomInv_remove_set r0 (h id r0 hst) userPub now
      · rw [if_neg hc] at hr
        exact (Option.some.inj hr) ▸ h id r0 hst

/-- C9: after any sequence of presence events from the empty
`roomPresence` map, in every room each member of `users` has an entry in
`lastSeen` — the member set is a subset of the `lastSeen` key set. -/
theorem presence_members_subset_lastSeen (ops : List PresenceOp)
    (id : String) (r : RoomState) (u : String)
    (hr : (ops.foldl applyPresenceOp presenceInit) id = some r)
    (hu : u ∈ r.users) : u ∈ r.lastSeen.map Prod.fst := by
  have key : ∀ (ops : List PresenceOp) (st : PresenceState), presInv st →
      presInv (ops.foldl applyPresenceOp st) := by
    intro ops
    induction ops with
    | nil => intro st h; exact h
    | cons op ops ih =>
      intro st h
      exact ih _ (presInv_apply st op h)
  exact key ops presenceInit
    (fun id r hr => by simp [presenceInit] at hr) id r hr u hu

/-- Witness for `presence_members_subset_lastSeen`: after one `joinRoom`
event the single member of the room has its `lastSeen` entry. -/
theorem presence_members_subset_lastSeen_witness :
    "u1" ∈ ((⟨"chat", ["u1"], [("u1", 5)]⟩ : RoomState)).lastSeen.map
      Prod.fst :=
  presence_members_subset_lastSeen [.join 5 "room1" "chat" "u1"] "room1"
    ⟨"chat", ["u1"], [("u1", 5)]⟩ "u1" (by decide) (by decide)

end Linda
